import Mathlib

/-!
# DS1624 digital thermometer and memory: transaction sequencing

A shallow embedding of `ds1624.c`.  The three sysfs callbacks
`ds1624_read_temp`, `ds1624_eeprom_read` and `ds1624_eeprom_write` are
translated into pure functions that pass three pieces of state explicitly:

* the state of the i2c transport (a parameter: the SMBus primitives are kernel
  code, so the bus is an arbitrary deterministic machine `Bus σ`);
* the file-scope and function-scope statics of the driver (`config_done`, and
  the `data[256]` array of `ds1624_eeprom_read`);
* the caller's buffer `buf`.

Every call also yields the ordered list of what it did on the outside: the bus
transactions (with the code each one returned) and the `msleep` waits.
`printk` calls are not modelled.
-/

set_option linter.unusedVariables false

namespace DS1624

/-! ## Command bytes -/

def DS1624_ACCESS_MEMORY : Nat := 0x17
def DS1624_ACCESS_CONFIG : Nat := 0xAC
def DS1624_READ_TEMP : Nat := 0xAA
def DS1624_START_CONV : Nat := 0xEE
def DS1624_STOP_CONV : Nat := 0x22

/-! ## Transport -/

/-- The four SMBus primitives the driver calls, as requests:
`i2c_smbus_write_byte_data(client, command, value)`,
`i2c_smbus_read_byte_data(client, command)`,
`i2c_smbus_read_word_data(client, command)` and
`i2c_smbus_write_word_data(client, command, value)`. -/
inductive Txn where
  | write_byte_data (command value : Nat)
  | read_byte_data (command : Nat)
  | read_word_data (command : Nat)
  | write_word_data (command value : Nat)
  deriving DecidableEq, Repr

/-- What a call does on the outside, in order: a bus transaction together with
the `s32` it returned, or a wait of `ms` milliseconds. -/
inductive Event where
  | txn (t : Txn) (ret : Int)
  | msleep (ms : Nat)
  deriving DecidableEq, Repr

/-- The transport bound to one `i2c_client`: from its current state and a
request it gives the `s32` return value (negative: an errno) and its next
state. -/
abbrev Bus (σ : Type) := σ → Txn → Int × σ

/-- The transactions of a trace, waits and return codes dropped. -/
def requests : List Event → List Txn
  | [] => []
  | Event.txn t _ :: es => t :: requests es
  | Event.msleep _ :: es => requests es

/-- The waits of a trace, in milliseconds. -/
def waits : List Event → List Nat
  | [] => []
  | Event.txn _ _ :: es => waits es
  | Event.msleep ms :: es => ms :: waits es

/-- The values the read-byte transactions of a trace returned, in order. -/
def read_byte_rets : List Event → List Int
  | [] => []
  | Event.txn (Txn.read_byte_data _) r :: es => r :: read_byte_rets es
  | Event.txn (Txn.write_byte_data _ _) _ :: es => read_byte_rets es
  | Event.txn (Txn.read_word_data _) _ :: es => read_byte_rets es
  | Event.txn (Txn.write_word_data _ _) _ :: es => read_byte_rets es
  | Event.msleep _ :: es => read_byte_rets es

/-- The return codes the bus gives when it is fed the requests `ts` one after
the other, starting in state `s`. -/
def replay {σ : Type} (bus : Bus σ) : σ → List Txn → List Int
  | _, [] => []
  | s, t :: ts => (bus s t).1 :: replay bus (bus s t).2 ts

/-- A transport on which every transaction succeeds, in whatever state it is:
no return code is negative (the failure test of the memory paths is
`ret < 0`). -/
def AllSucceed {σ : Type} (bus : Bus σ) : Prop :=
  ∀ s t, 0 ≤ (bus s t).1

/-! ## Driver state -/

/-- The statics of the driver: `static bool config_done` (file scope) and
`static u8 data[256]` (local to `ds1624_eeprom_read`).  `data j` for `j < 256`
is the array slot `j`; the loop writes no other index.  An index `j ≥ 256`
stands for the byte that follows the array in memory, which `memcpy` reads when
`count > 256`. -/
structure Driver where
  config_done : Bool
  data : Nat → Nat

/-- The state `ds1624.c` is loaded with: `config_done = 0` and a zeroed
`data`. -/
def Driver.init : Driver := { config_done := false, data := fun _ => 0 }

/-- Result of `ds1624_read_temp`: the `ssize_t` returned, the `u16` that
`memcpy(buf, &temp, sizeof(u16))` puts at the front of `buf`, the statics, the
transport state and the trace. -/
structure TempOutcome (σ : Type) where
  ret : Int
  sample : Nat
  drv : Driver
  bus : σ
  trace : List Event

/-- Result of `ds1624_eeprom_read` and `ds1624_eeprom_write`: the `ssize_t`
returned, the caller's buffer after the call, the statics, the transport state
and the trace. -/
structure Outcome (σ : Type) where
  ret : Int
  buf : List Nat
  drv : Driver
  bus : σ
  trace : List Event

/-- The `memcpy(dest, src, n)` of `ds1624_eeprom_read`: the first `n` bytes of
`dest` become `src 0 .. src (n-1)`, the rest of `dest` is kept. -/
def memcpy (dest : List Nat) (src : Nat → Nat) (n : Nat) : List Nat :=
  (List.range n).map src ++ dest.drop n

/-! ## `ds1624_read_temp` -/

/-- Lines 35-48: the one-shot configuration, done when `config_done == 0`.
Gives the statics, the transport state and the events of this block. -/
def ds1624_read_temp_config {σ : Type} (bus : Bus σ) (drv : Driver) (s : σ) :
    Driver × σ × List Event :=
  if drv.config_done = false then
    let r := bus s (Txn.write_byte_data DS1624_ACCESS_CONFIG 0x01)
    if r.1 ≠ 0 then
      (drv, r.2, [Event.txn (Txn.write_byte_data DS1624_ACCESS_CONFIG 0x01) r.1])
    else
      ({ drv with config_done := true }, r.2,
        [Event.txn (Txn.write_byte_data DS1624_ACCESS_CONFIG 0x01) r.1, Event.msleep 30])
  else
    (drv, s, [])

/-- Lines 68-69: `temp = ((ret << 8) & 0xff00) | ((ret >> 8) & 0xff)` for a
non-negative `s32 ret`, stored in a `u16`. -/
def swab_ret (ret : Int) : Nat :=
  (((ret.toNat <<< 8) &&& 0xff00) ||| ((ret.toNat >>> 8) &&& 0xff)) % 65536

/-- `ds1624_read_temp(kobj, attr, buf, off, count)`.  `temp0` is the value the
uninitialised local `u16 temp` happens to hold on entry; `off` and `count` are
the callback's arguments, which the body never reads. -/
def ds1624_read_temp {σ : Type} (bus : Bus σ) (drv : Driver) (s : σ)
    (temp0 : Nat) (off count : Nat) : TempOutcome σ :=
  let c := ds1624_read_temp_config bus drv s
  -- start temp conversion
  let r1 := bus c.2.1 (Txn.write_byte_data DS1624_START_CONV 0x0)
  -- msleep(1000), then read temp
  let r2 := bus r1.2 (Txn.read_word_data DS1624_READ_TEMP)
  let temp := if r2.1 < 0 then temp0 else swab_ret r2.1
  -- stop temp conversion
  let r3 := bus r2.2 (Txn.write_byte_data DS1624_STOP_CONV 0x0)
  { ret := 2
    sample := temp
    drv := c.1
    bus := r3.2
    trace := c.2.2 ++
      [Event.txn (Txn.write_byte_data DS1624_START_CONV 0x0) r1.1,
       Event.msleep 1000,
       Event.txn (Txn.read_word_data DS1624_READ_TEMP) r2.1,
       Event.txn (Txn.write_byte_data DS1624_STOP_CONV 0x0) r3.1] }

/-- A sequence of `ds1624_read_temp` calls on one device, one call per entry of
`temps` (the indeterminate initial `temp` of that call); the statics and the
transport state are carried from call to call.  Gives the outcome of every
call, in order. -/
def ds1624_read_temp_calls {σ : Type} (bus : Bus σ) :
    Driver → σ → List Nat → List (TempOutcome σ)
  | _, _, [] => []
  | drv, s, temp0 :: temps =>
    let o := ds1624_read_temp bus drv s temp0 0 2
    o :: ds1624_read_temp_calls bus o.drv o.bus temps

/-! ## `ds1624_eeprom_read` -/

/-- The `for (i = 0; i<count; i++)` loop of `ds1624_eeprom_read` with the
`memcpy` and `return count` that follow it.  The first numeric argument is the
number of iterations left, `count - i`; the second is `i`.  (`i` is an `int`
compared with a `size_t`: the translation is for `count < 2^31`.) -/
def ds1624_eeprom_read_loop {σ : Type} (bus : Bus σ) (buf : List Nat) (count : Nat) :
    Nat → Nat → Driver → σ → Outcome σ
  | 0, _, drv, s =>
    { ret := (count : Int), buf := memcpy buf drv.data count, drv := drv, bus := s, trace := [] }
  | n + 1, i, drv, s =>
    let val := i % 256
    -- Write the offset (addr) to read
    let r := bus s (Txn.write_byte_data DS1624_ACCESS_MEMORY val)
    if r.1 < 0 then
      { ret := r.1, buf := buf, drv := drv, bus := r.2,
        trace := [Event.txn (Txn.write_byte_data DS1624_ACCESS_MEMORY val) r.1] }
    else
      -- Reads the actual data @ the given addr
      let r2 := bus r.2 (Txn.read_byte_data DS1624_ACCESS_MEMORY)
      if 0 ≤ r2.1 then
        let drv2 : Driver :=
          { drv with data := fun j => if j = val then r2.1.toNat &&& 0xff else drv.data j }
        let o := ds1624_eeprom_read_loop bus buf count n (i + 1) drv2 r2.2
        { o with trace :=
            Event.txn (Txn.write_byte_data DS1624_ACCESS_MEMORY val) r.1 ::
            Event.txn (Txn.read_byte_data DS1624_ACCESS_MEMORY) r2.1 ::
            Event.msleep 30 :: o.trace }
      else
        { ret := r2.1, buf := buf, drv := drv, bus := r2.2,
          trace := [Event.txn (Txn.write_byte_data DS1624_ACCESS_MEMORY val) r.1,
                    Event.txn (Txn.read_byte_data DS1624_ACCESS_MEMORY) r2.1] }

/-- `ds1624_eeprom_read(kobj, attr, buf, off, count)`. -/
def ds1624_eeprom_read {σ : Type} (bus : Bus σ) (drv : Driver) (s : σ)
    (buf : List Nat) (off count : Nat) : Outcome σ :=
  ds1624_eeprom_read_loop bus buf count count 0 drv s

/-! ## `ds1624_eeprom_write` -/

/-- Line 148: `val = (((i & 0xff) )| ((buf[i] & 0xff) << 8))`, a `u16`.  `b` is
`buf[i]` given by its unsigned byte value. -/
def eeprom_write_val (i b : Nat) : Nat :=
  ((i &&& 0xff) ||| ((b &&& 0xff) <<< 8)) % 65536

/-- The `for (i = 0; i<count; i++)` loop of `ds1624_eeprom_write` with the
`return count` that follows it.  The first numeric argument is the number of
iterations left, `count - i`; the second is `i`.  `buf` holds the caller's
bytes by unsigned value; the caller provides `count` of them. -/
def ds1624_eeprom_write_loop {σ : Type} (bus : Bus σ) (drv : Driver) (buf : List Nat)
    (count : Nat) : Nat → Nat → σ → Outcome σ
  | 0, _, s =>
    { ret := (count : Int), buf := buf, drv := drv, bus := s, trace := [] }
  | n + 1, i, s =>
    -- Lower byte = addr, Higher byte = data
    let val := eeprom_write_val i (buf.getD i 0)
    let r := bus s (Txn.write_word_data DS1624_ACCESS_MEMORY val)
    if r.1 < 0 then
      { ret := r.1, buf := buf, drv := drv, bus := r.2,
        trace := [Event.txn (Txn.write_word_data DS1624_ACCESS_MEMORY val) r.1] }
    else
      let o := ds1624_eeprom_write_loop bus drv buf count n (i + 1) r.2
      { o with trace :=
          Event.txn (Txn.write_word_data DS1624_ACCESS_MEMORY val) r.1 ::
          Event.msleep 30 :: o.trace }

/-- `ds1624_eeprom_write(kobj, attr, buf, off, count)`. -/
def ds1624_eeprom_write {σ : Type} (bus : Bus σ) (drv : Driver) (s : σ)
    (buf : List Nat) (off count : Nat) : Outcome σ :=
  ds1624_eeprom_write_loop bus drv buf count count 0 s

/-! ## Transaction scripts -/

/-- The transactions of one iteration of the read loop at index `i`: select
the address `(u8)i`, then read the byte. -/
def eeprom_read_step (i : Nat) : List Txn :=
  [Txn.write_byte_data DS1624_ACCESS_MEMORY (i % 256), Txn.read_byte_data DS1624_ACCESS_MEMORY]

/-- The transaction of one iteration of the write loop at index `i`. -/
def eeprom_write_txn (buf : List Nat) (i : Nat) : Txn :=
  Txn.write_word_data DS1624_ACCESS_MEMORY (eeprom_write_val i (buf.getD i 0))

/-! ## Concrete transports -/

/-- A transport that answers from a script: its state is the list of return
codes still to give, one per transaction whatever the request; once the script
is used up every transaction returns `0`. -/
def scriptBus : Bus (List Int) := fun s _ =>
  match s with
  | [] => (0, [])
  | r :: rs => (r, rs)

/-- State of the memory transport: the 256 bytes of the device and the address
selected last. -/
structure Mem where
  mem : Nat → Nat
  sel : Nat

/-- The memory model of the round trip, following its description:
write-word(0x17, v) stores the high byte of `v` at the address given by the low
byte of `v`, write-byte(0x17, a) selects address `a`, read-byte(0x17) returns
the byte stored at the selected address.  Every other transaction returns `0`
and changes nothing. -/
def memBus : Bus Mem := fun s t =>
  match t with
  | Txn.write_word_data c v =>
    if c = 0x17 then
      (0, { s with mem := fun a => if a = v % 256 then (v / 256) % 256 else s.mem a })
    else (0, s)
  | Txn.write_byte_data c a => if c = 0x17 then (0, { s with sel := a }) else (0, s)
  | Txn.read_byte_data c => if c = 0x17 then ((s.mem s.sel : Int), s) else (0, s)
  | Txn.read_word_data _ => (0, s)

/-- A device memory holding `0xA5` everywhere, address `0` selected. -/
def Mem.a5 : Mem := { mem := fun _ => 0xA5, sel := 0 }

/-! ## Arithmetic of the byte operations -/

theorem and_ff (x : Nat) : x &&& 0xff = x % 256 :=
  Nat.and_pow_two_sub_one_eq_mod x 8

theorem shl8_and_ff00 (w : Nat) : (w <<< 8) &&& 0xff00 = (w % 256) <<< 8 := by
  have h : (0xff00 : Nat) = 0xff <<< 8 := by decide
  rw [h, ← and_ff]
  apply Nat.eq_of_testBit_eq
  intro i
  simp only [Nat.testBit_and, Nat.testBit_shiftLeft]
  cases decide (i ≥ 8) <;> simp

theorem shl8_or (a b : Nat) (hb : b < 256) : (a <<< 8) ||| b = a * 256 + b := by
  have h := Nat.mul_add_lt_is_or (show b < 2 ^ 8 from hb) a
  rw [Nat.shiftLeft_eq, Nat.mul_comm a (2 ^ 8), ← h, Nat.mul_comm]

theorem swab_nat (w : Nat) :
    ((w <<< 8) &&& 0xff00) ||| ((w >>> 8) &&& 0xff) = (w % 256) * 256 + (w / 256) % 256 := by
  rw [shl8_and_ff00, and_ff, Nat.shiftRight_eq_div_pow, shl8_or _ _ (Nat.mod_lt _ (by decide))]

theorem swab_ret_eq (w : Int) (hw : w.toNat < 65536) :
    swab_ret w = (w.toNat % 256) * 256 + w.toNat / 256 := by
  unfold swab_ret
  rw [swab_nat]
  generalize w.toNat = n at hw
  have hb : n / 256 < 256 := Nat.div_lt_of_lt_mul hw
  have hl : n % 256 < 256 := Nat.mod_lt _ (by decide)
  rw [Nat.mod_eq_of_lt hb, Nat.mod_eq_of_lt]
  have : n % 256 * 256 ≤ 255 * 256 := Nat.mul_le_mul_right 256 (by omega)
  omega

/-! ## Temperature acquisition -/

theorem read_temp_config_no_read_word {σ : Type} (bus : Bus σ) (drv : Driver) (s : σ)
    (c : Nat) (w : Int) :
    Event.txn (Txn.read_word_data c) w ∉ (ds1624_read_temp_config bus drv s).2.2 := by
  unfold ds1624_read_temp_config
  by_cases h : drv.config_done = false <;>
    by_cases h2 : (bus s (Txn.write_byte_data DS1624_ACCESS_CONFIG 0x01)).1 = 0 <;>
    simp [h, h2]

/-- C1: whenever the read-word transaction for READ_TEMP of a call of
`ds1624_read_temp` returns a raw word `w` with `0 ≤ w ≤ 0xFFFF`, the sample
copied to the caller is the byte swap of `w`: it is
`((w << 8) & 0xFF00) | ((w >> 8) & 0xFF)`, its high byte is the low byte of `w`
and its low byte is the high byte of `w`.  Nothing is assumed about the
configuration, start-conversion and stop-conversion writes. -/
theorem C1_read_temp_sample_is_byte_swap {σ : Type} (bus : Bus σ) (drv : Driver) (s : σ)
    (temp0 off count : Nat) (w : Int) (h0 : 0 ≤ w) (h1 : w ≤ 0xFFFF)
    (hread : Event.txn (Txn.read_word_data DS1624_READ_TEMP) w ∈
      (ds1624_read_temp bus drv s temp0 off count).trace) :
    (ds1624_read_temp bus drv s temp0 off count).sample
        = (((w.toNat <<< 8) &&& 0xFF00) ||| ((w.toNat >>> 8) &&& 0xFF)) ∧
      (ds1624_read_temp bus drv s temp0 off count).sample / 256 = w.toNat % 256 ∧
      (ds1624_read_temp bus drv s temp0 off count).sample % 256 = w.toNat / 256 := by
  have hw : w.toNat < 65536 := by omega
  have hret : (bus (bus (ds1624_read_temp_config bus drv s).2.1
      (Txn.write_byte_data DS1624_START_CONV 0x0)).2 (Txn.read_word_data DS1624_READ_TEMP)).1
      = w := by
    simp only [ds1624_read_temp, List.mem_append, List.mem_cons, List.not_mem_nil,
      or_false] at hread
    rcases hread with h | h | h | h | h
    · exact absurd h (read_temp_config_no_read_word bus drv s _ _)
    · cases h
    · cases h
    · injection h with _ h
      exact h.symm
    · cases h
  have hs : (ds1624_read_temp bus drv s temp0 off count).sample = swab_ret w := by
    simp only [ds1624_read_temp, hret]
    rw [if_neg (by omega)]
  have hv : swab_ret w = (w.toNat % 256) * 256 + w.toNat / 256 := swab_ret_eq w hw
  refine ⟨?_, ?_, ?_⟩
  · rw [hs, swab_nat, hv]
    omega
  · rw [hs, hv]
    omega
  · rw [hs, hv]
    omega

/-- Witness of C1: on a transport whose read-word returns `0x1234` and whose
start write fails, the sample is `0x3412`. -/
theorem C1_read_temp_sample_is_byte_swap_witness :
    (ds1624_read_temp scriptBus Driver.init [0, -5, 0x1234, 0] 0 0 2).sample = 0x3412 ∧
      (ds1624_read_temp scriptBus Driver.init [0, -5, 0x1234, 0] 0 0 2).sample / 256
        = (0x1234 : Int).toNat % 256 :=
  ⟨by decide,
   (C1_read_temp_sample_is_byte_swap scriptBus Driver.init [0, -5, 0x1234, 0] 0 0 2 0x1234
      (by decide) (by decide) (by decide)).2.1⟩

/-! ## Memory read: the loop -/

theorem requests_append (a b : List Event) : requests (a ++ b) = requests a ++ requests b := by
  induction a with
  | nil => rfl
  | cons e es ih => cases e <;> simp [requests, ih]

theorem eeprom_read_loop_ok {σ : Type} (bus : Bus σ) (hbus : AllSucceed bus) (buf : List Nat)
    (count : Nat) (n : Nat) : ∀ (i : Nat) (drv : Driver) (s : σ),
    requests (ds1624_eeprom_read_loop bus buf count n i drv s).trace
        = ((List.range' i n).map eeprom_read_step).flatten ∧
      (ds1624_eeprom_read_loop bus buf count n i drv s).ret = (count : Int) := by
  induction n with
  | zero => intro i drv s; simp [ds1624_eeprom_read_loop, requests]
  | succ n ih =>
    intro i drv s
    have h1 := hbus s (Txn.write_byte_data DS1624_ACCESS_MEMORY (i % 256))
    have h2 := hbus (bus s (Txn.write_byte_data DS1624_ACCESS_MEMORY (i % 256))).2
      (Txn.read_byte_data DS1624_ACCESS_MEMORY)
    simp only [ds1624_eeprom_read_loop, if_neg (not_lt.mpr h1), if_pos h2, requests,
      List.range'_succ, List.map_cons, List.flatten_cons, eeprom_read_step, List.cons_append,
      List.nil_append]
    exact ⟨by rw [(ih _ _ _).1], (ih _ _ _).2⟩

theorem replay_cons {σ : Type} (bus : Bus σ) (s : σ) (t : Txn) (ts : List Txn) :
    replay bus s (t :: ts) = (bus s t).1 :: replay bus (bus s t).2 ts := rfl

theorem eeprom_read_steps_succ (i n : Nat) :
    ((List.range' i (n + 1)).map eeprom_read_step).flatten
      = Txn.write_byte_data DS1624_ACCESS_MEMORY (i % 256) ::
        Txn.read_byte_data DS1624_ACCESS_MEMORY ::
        ((List.range' (i + 1) n).map eeprom_read_step).flatten := rfl

theorem eeprom_read_loop_abort {σ : Type} (bus : Bus σ) (buf : List Nat) (count : Nat)
    (n : Nat) : ∀ (i : Nat) (drv : Driver) (s : σ) (k : Nat) (e : Int),
    (replay bus s ((List.range' i n).map eeprom_read_step).flatten)[k]? = some e →
    e < 0 →
    (∀ j r, j < k →
      (replay bus s ((List.range' i n).map eeprom_read_step).flatten)[j]? = some r → 0 ≤ r) →
    requests (ds1624_eeprom_read_loop bus buf count n i drv s).trace
        = (((List.range' i n).map eeprom_read_step).flatten).take (k + 1) ∧
      (ds1624_eeprom_read_loop bus buf count n i drv s).ret = e ∧
      (ds1624_eeprom_read_loop bus buf count n i drv s).buf = buf := by
  induction n with
  | zero => intro i drv s k e hk; simp [replay] at hk
  | succ n ih =>
    intro i drv s k e hk he hpre
    rw [eeprom_read_steps_succ, replay_cons, replay_cons] at hk
    rw [eeprom_read_steps_succ]
    match k with
    | 0 =>
      simp only [List.getElem?_cons_zero, Option.some.injEq] at hk
      simp only [ds1624_eeprom_read_loop, hk, if_pos he, requests, List.take_succ_cons,
        List.take_zero, and_self]
    | 1 =>
      have h1 := hpre 0 (bus s (Txn.write_byte_data DS1624_ACCESS_MEMORY (i % 256))).1
        (by decide) (by rw [eeprom_read_steps_succ, replay_cons]; simp only [List.getElem?_cons_zero])
      simp only [List.getElem?_cons_succ, List.getElem?_cons_zero, Option.some.injEq] at hk
      simp only [ds1624_eeprom_read_loop, hk, if_neg (not_lt.mpr h1), if_neg (not_le.mpr he),
        requests, List.take_succ_cons, List.take_zero, and_self]
    | k + 2 =>
      have h1 := hpre 0 (bus s (Txn.write_byte_data DS1624_ACCESS_MEMORY (i % 256))).1
        (by omega) (by rw [eeprom_read_steps_succ, replay_cons]; simp only [List.getElem?_cons_zero])
      have h2 := hpre 1 (bus (bus s (Txn.write_byte_data DS1624_ACCESS_MEMORY (i % 256))).2
          (Txn.read_byte_data DS1624_ACCESS_MEMORY)).1
        (by omega) (by rw [eeprom_read_steps_succ, replay_cons, replay_cons]; simp only [List.getElem?_cons_succ, List.getElem?_cons_zero])
      simp only [List.getElem?_cons_succ] at hk
      have := ih (i + 1)
        { drv with data := fun j => if j = i % 256 then
            (bus (bus s (Txn.write_byte_data DS1624_ACCESS_MEMORY (i % 256))).2
              (Txn.read_byte_data DS1624_ACCESS_MEMORY)).1.toNat &&& 0xff else drv.data j }
        _ k e hk he (fun j r hj hr => hpre (j + 2) r (by omega)
          (by rw [eeprom_read_steps_succ, replay_cons, replay_cons]
              simpa only [List.getElem?_cons_succ] using hr))
      simp only [ds1624_eeprom_read_loop, if_neg (not_lt.mpr h1), if_pos h2, requests,
        List.take_succ_cons]
      exact ⟨by rw [this.1], this.2.1, this.2.2⟩

/-! ## Memory write: the loop -/

theorem eeprom_write_loop_ok {σ : Type} (bus : Bus σ) (hbus : AllSucceed bus) (drv : Driver)
    (buf : List Nat) (count : Nat) (n : Nat) : ∀ (i : Nat) (s : σ),
    requests (ds1624_eeprom_write_loop bus drv buf count n i s).trace
        = (List.range' i n).map (eeprom_write_txn buf) ∧
      (ds1624_eeprom_write_loop bus drv buf count n i s).ret = (count : Int) := by
  induction n with
  | zero => intro i s; simp [ds1624_eeprom_write_loop, requests]
  | succ n ih =>
    intro i s
    have h1 := hbus s (eeprom_write_txn buf i)
    unfold eeprom_write_txn at h1
    simp only [ds1624_eeprom_write_loop, if_neg (not_lt.mpr h1), requests,
      List.range'_succ, List.map_cons]
    exact ⟨by rw [(ih _ _).1]; rfl, (ih _ _).2⟩

theorem eeprom_write_loop_abort {σ : Type} (bus : Bus σ) (drv : Driver) (buf : List Nat)
    (count : Nat) (n : Nat) : ∀ (i : Nat) (s : σ) (k : Nat) (e : Int),
    (replay bus s ((List.range' i n).map (eeprom_write_txn buf)))[k]? = some e →
    e < 0 →
    (∀ j r, j < k →
      (replay bus s ((List.range' i n).map (eeprom_write_txn buf)))[j]? = some r → 0 ≤ r) →
    requests (ds1624_eeprom_write_loop bus drv buf count n i s).trace
        = ((List.range' i n).map (eeprom_write_txn buf)).take (k + 1) ∧
      (ds1624_eeprom_write_loop bus drv buf count n i s).ret = e := by
  induction n with
  | zero => intro i s k e hk; simp [replay] at hk
  | succ n ih =>
    intro i s k e hk he hpre
    rw [List.range'_succ, List.map_cons, replay_cons] at hk
    rw [List.range'_succ, List.map_cons]
    match k with
    | 0 =>
      simp only [List.getElem?_cons_zero, Option.some.injEq] at hk
      unfold eeprom_write_txn at hk
      simp only [ds1624_eeprom_write_loop, hk, if_pos he, requests, List.take_succ_cons,
        List.take_zero, eeprom_write_txn, and_self]
    | k + 1 =>
      have h1 := hpre 0 (bus s (eeprom_write_txn buf i)).1
        (by omega) (by rw [List.range'_succ, List.map_cons, replay_cons]; simp only [List.getElem?_cons_zero])
      simp only [List.getElem?_cons_succ] at hk
      have := ih (i + 1) _ k e hk he (fun j r hj hr => hpre (j + 1) r (by omega)
          (by rw [List.range'_succ, List.map_cons, replay_cons]
              simpa only [List.getElem?_cons_succ] using hr))
      unfold eeprom_write_txn at h1 this
      simp only [ds1624_eeprom_write_loop, if_neg (not_lt.mpr h1), requests,
        List.take_succ_cons, eeprom_write_txn]
      exact ⟨by rw [this.1]; rfl, this.2⟩

/-! ## The memory paths on a transport that never fails -/

theorem memBus_allSucceed : AllSucceed memBus := by
  intro s t
  cases t <;> simp only [memBus] <;> (try split) <;> simp

theorem eeprom_write_val_eq (i b : Nat) :
    eeprom_write_val i b = i % 256 + 256 * (b % 256) := by
  unfold eeprom_write_val
  have hi : i % 256 < 256 := Nat.mod_lt _ (by decide)
  have hb : b % 256 < 256 := Nat.mod_lt _ (by decide)
  rw [and_ff, and_ff, Nat.lor_comm, shl8_or _ _ hi]
  omega

/-- C2: on a transport on which every transaction succeeds, and for
`N ≤ 256`, the transactions of `ds1624_eeprom_read` with count `N` are exactly
select(0), read, select(1), read, ..., select(N-1), read, where select(a) is
write-byte(0x17, a) and read is read-byte(0x17): `2 * N` transactions, the
addresses `0 .. N-1` in increasing order, each read right after its select. -/
theorem C2_eeprom_read_selects_then_reads {σ : Type} (bus : Bus σ) (hbus : AllSucceed bus)
    (drv : Driver) (s : σ) (buf : List Nat) (off N : Nat) (hN : N ≤ 256) :
    requests (ds1624_eeprom_read bus drv s buf off N).trace
        = ((List.range N).map
            (fun a => [Txn.write_byte_data 0x17 a, Txn.read_byte_data 0x17])).flatten ∧
      (requests (ds1624_eeprom_read bus drv s buf off N).trace).length = 2 * N := by
  have h := (eeprom_read_loop_ok bus hbus buf N N 0 drv s).1
  have hmap : (List.range N).map eeprom_read_step
      = (List.range N).map
          (fun a => [Txn.write_byte_data 0x17 a, Txn.read_byte_data 0x17]) := by
    apply List.map_congr_left
    intro a ha
    have : a < 256 := by have := List.mem_range.mp ha; omega
    simp [eeprom_read_step, DS1624_ACCESS_MEMORY, Nat.mod_eq_of_lt this]
  have heq : requests (ds1624_eeprom_read bus drv s buf off N).trace
      = ((List.range N).map
          (fun a => [Txn.write_byte_data 0x17 a, Txn.read_byte_data 0x17])).flatten := by
    rw [← hmap, List.range_eq_range']
    exact h
  refine ⟨heq, ?_⟩
  rw [heq]
  clear heq hmap h hN
  induction N with
  | zero => rfl
  | succ n ih => simp [List.range_succ, ih]; omega

/-- Witness of C2: three bytes read from the memory transport. -/
theorem C2_eeprom_read_selects_then_reads_witness :
    requests (ds1624_eeprom_read memBus Driver.init Mem.a5 [] 0 3).trace
      = [Txn.write_byte_data 0x17 0, Txn.read_byte_data 0x17,
         Txn.write_byte_data 0x17 1, Txn.read_byte_data 0x17,
         Txn.write_byte_data 0x17 2, Txn.read_byte_data 0x17] :=
  (C2_eeprom_read_selects_then_reads memBus memBus_allSucceed Driver.init Mem.a5 [] 0 3
    (by decide)).1

/-- C3: on a transport on which every transaction succeeds, and for a buffer
`bytes` of length `N ≤ 256`, `ds1624_eeprom_write` issues exactly `N`
transactions, the `i`-th being write-word(0x17, v) with
`v = i + 256 * bytes[i]` (`bytes[i]` as an unsigned 8-bit value: low byte the
address, high byte the data), and returns `N`. -/
theorem C3_eeprom_write_words {σ : Type} (bus : Bus σ) (hbus : AllSucceed bus)
    (drv : Driver) (s : σ) (bytes : List Nat) (off : Nat) (hN : bytes.length ≤ 256) :
    (requests (ds1624_eeprom_write bus drv s bytes off bytes.length).trace).length
        = bytes.length ∧
      (∀ i (hi : i < bytes.length),
        (requests (ds1624_eeprom_write bus drv s bytes off bytes.length).trace)[i]?
          = some (Txn.write_word_data 0x17 (i + 256 * (bytes[i] % 256)))) ∧
      (ds1624_eeprom_write bus drv s bytes off bytes.length).ret = (bytes.length : Int) := by
  have h := eeprom_write_loop_ok bus hbus drv bytes bytes.length bytes.length 0 s
  have heq : requests (ds1624_eeprom_write bus drv s bytes off bytes.length).trace
      = (List.range' 0 bytes.length).map (eeprom_write_txn bytes) := h.1
  refine ⟨by rw [heq]; simp, ?_, h.2⟩
  intro i hi
  rw [heq, List.getElem?_map, List.getElem?_range' _ _ hi]
  have h256 : i % 256 = i := Nat.mod_eq_of_lt (by omega)
  simp [eeprom_write_txn, eeprom_write_val_eq, DS1624_ACCESS_MEMORY, h256,
    List.getElem?_eq_getElem hi]

/-- Witness of C3: the bytes `0x11, 0x22` are sent as the words `0x1100` and
`0x2201`. -/
theorem C3_eeprom_write_words_witness :
    (requests (ds1624_eeprom_write memBus Driver.init Mem.a5 [0x11, 0x22] 0 2).trace)[1]?
        = some (Txn.write_word_data 0x17 0x2201) ∧
      (ds1624_eeprom_write memBus Driver.init Mem.a5 [0x11, 0x22] 0 2).ret = 2 :=
  ⟨(C3_eeprom_write_words memBus memBus_allSucceed Driver.init Mem.a5 [0x11, 0x22] 0
      (by decide)).2.1 1 (by decide),
   (C3_eeprom_write_words memBus memBus_allSucceed Driver.init Mem.a5 [0x11, 0x22] 0
      (by decide)).2.2⟩

/-! ## The memory paths abort on the first failure -/

theorem nonneg_before_of_take {l : List Int} {k : Nat} (h : ∀ r ∈ l.take k, 0 ≤ r) :
    ∀ j r, j < k → l[j]? = some r → 0 ≤ r := by
  intro j r hj hr
  apply h
  have : (l.take k)[j]? = some r := by rw [List.getElem?_take_of_lt hj]; exact hr
  exact List.getElem?_mem this

/-- C4: let the all-success trace of a memory read (of a memory write) be the
transactions the call issues on a transport that never fails.  If a transport
fed with those transactions fails first at list index `k` (the `(k+1)`-th
transaction: the `k` before it return non-negative codes), with negative code
`e`, then the call on that transport issues exactly the first `k + 1`
transactions of the all-success trace and nothing after them, returns `e`, and,
for the read, leaves the caller's buffer as it was. -/
theorem C4_eeprom_abort_on_first_failure {σ τ : Type} (bus : Bus σ) (ok : Bus τ)
    (hok : AllSucceed ok) (drv drv0 : Driver) (s : σ) (s0 : τ) (buf : List Nat)
    (off count k : Nat) (e : Int) (he : e < 0) :
    ((replay bus s (requests (ds1624_eeprom_read ok drv0 s0 buf off count).trace))[k]? = some e →
      (∀ r ∈ (replay bus s
          (requests (ds1624_eeprom_read ok drv0 s0 buf off count).trace)).take k, 0 ≤ r) →
      requests (ds1624_eeprom_read bus drv s buf off count).trace
          = (requests (ds1624_eeprom_read ok drv0 s0 buf off count).trace).take (k + 1) ∧
        (ds1624_eeprom_read bus drv s buf off count).ret = e ∧
        (ds1624_eeprom_read bus drv s buf off count).buf = buf) ∧
    ((replay bus s (requests (ds1624_eeprom_write ok drv0 s0 buf off count).trace))[k]? = some e →
      (∀ r ∈ (replay bus s
          (requests (ds1624_eeprom_write ok drv0 s0 buf off count).trace)).take k, 0 ≤ r) →
      requests (ds1624_eeprom_write bus drv s buf off count).trace
          = (requests (ds1624_eeprom_write ok drv0 s0 buf off count).trace).take (k + 1) ∧
        (ds1624_eeprom_write bus drv s buf off count).ret = e) := by
  have hr : requests (ds1624_eeprom_read ok drv0 s0 buf off count).trace
      = ((List.range' 0 count).map eeprom_read_step).flatten :=
    (eeprom_read_loop_ok ok hok buf count count 0 drv0 s0).1
  have hw : requests (ds1624_eeprom_write ok drv0 s0 buf off count).trace
      = (List.range' 0 count).map (eeprom_write_txn buf) :=
    (eeprom_write_loop_ok ok hok drv0 buf count count 0 s0).1
  rw [hr, hw]
  exact ⟨fun hk hpre => eeprom_read_loop_abort bus buf count count 0 drv s k e hk he
      (nonneg_before_of_take hpre),
    fun hk hpre => eeprom_write_loop_abort bus drv buf count count 0 s k e hk he
      (nonneg_before_of_take hpre)⟩

/-- Witness of C4: a read of four bytes whose fourth transaction (the read of
address 1) fails with `-5` stops after four transactions and returns `-5`; a
write of four bytes whose fourth transaction fails does the same. -/
theorem C4_eeprom_abort_on_first_failure_witness :
    (requests (ds1624_eeprom_read scriptBus Driver.init [0, 7, 0, -5] [9, 9, 9, 9] 0 4).trace
        = [Txn.write_byte_data 0x17 0, Txn.read_byte_data 0x17,
           Txn.write_byte_data 0x17 1, Txn.read_byte_data 0x17] ∧
      (ds1624_eeprom_read scriptBus Driver.init [0, 7, 0, -5] [9, 9, 9, 9] 0 4).ret = -5 ∧
      (ds1624_eeprom_read scriptBus Driver.init [0, 7, 0, -5] [9, 9, 9, 9] 0 4).buf
        = [9, 9, 9, 9]) ∧
    (ds1624_eeprom_write scriptBus Driver.init [0, 7, 0, -5] [9, 9, 9, 9] 0 4).ret = -5 :=
  ⟨(C4_eeprom_abort_on_first_failure scriptBus memBus memBus_allSucceed Driver.init
      Driver.init [0, 7, 0, -5] Mem.a5 [9, 9, 9, 9] 0 4 3 (-5) (by decide)).1
      (by decide) (by decide),
   ((C4_eeprom_abort_on_first_failure scriptBus memBus memBus_allSucceed Driver.init
      Driver.init [0, 7, 0, -5] Mem.a5 [9, 9, 9, 9] 0 4 3 (-5) (by decide)).2
      (by decide) (by decide)).2⟩

/-! ## Round trip through the memory transport -/

theorem memBus_write_word (s : Mem) (v : Nat) :
    memBus s (Txn.write_word_data DS1624_ACCESS_MEMORY v)
      = (0, { s with mem := fun a => if a = v % 256 then (v / 256) % 256 else s.mem a }) := rfl

theorem memBus_write_byte (s : Mem) (a : Nat) :
    memBus s (Txn.write_byte_data DS1624_ACCESS_MEMORY a) = (0, { s with sel := a }) := rfl

theorem memBus_read_byte (s : Mem) :
    memBus s (Txn.read_byte_data DS1624_ACCESS_MEMORY) = ((s.mem s.sel : Int), s) := rfl

theorem eeprom_write_loop_memBus (drv : Driver) (buf : List Nat) (count : Nat) (n : Nat) :
    ∀ (i : Nat) (s : Mem), i + n ≤ 256 →
      (ds1624_eeprom_write_loop memBus drv buf count n i s).ret = (count : Int) ∧
      (ds1624_eeprom_write_loop memBus drv buf count n i s).drv = drv ∧
      ∀ j, (ds1624_eeprom_write_loop memBus drv buf count n i s).bus.mem j
        = if i ≤ j ∧ j < i + n then buf.getD j 0 % 256 else s.mem j := by
  induction n with
  | zero =>
    intro i s _
    refine ⟨rfl, rfl, fun j => ?_⟩
    rw [if_neg (by omega)]
    rfl
  | succ n ih =>
    intro i s hin
    have hi : i % 256 = i := Nat.mod_eq_of_lt (by omega)
    have h := ih (i + 1)
      (memBus s (Txn.write_word_data DS1624_ACCESS_MEMORY
        (eeprom_write_val i (buf.getD i 0)))).2 (by omega)
    simp only [ds1624_eeprom_write_loop, memBus_write_word, lt_self_iff_false, if_false]
    rw [memBus_write_word] at h
    refine ⟨h.1, h.2.1, fun j => ?_⟩
    rw [h.2.2 j]
    have hlow : eeprom_write_val i (buf.getD i 0) % 256 = i := by
      rw [eeprom_write_val_eq, hi]; omega
    have hhigh : eeprom_write_val i (buf.getD i 0) / 256 % 256 = buf.getD i 0 % 256 := by
      rw [eeprom_write_val_eq, hi]; omega
    simp only [hlow, hhigh]
    by_cases hj : j = i
    · subst hj
      rw [if_neg (by omega), if_pos rfl, if_pos (by omega)]
    · by_cases hr : i + 1 ≤ j ∧ j < i + 1 + n
      · rw [if_pos hr, if_pos (by omega)]
      · rw [if_neg hr, if_neg hj, if_neg (by omega)]

theorem eeprom_read_loop_memBus (buf : List Nat) (count : Nat) (n : Nat) :
    ∀ (i : Nat) (drv : Driver) (s : Mem), i + n ≤ 256 →
      (ds1624_eeprom_read_loop memBus buf count n i drv s).ret = (count : Int) ∧
      (ds1624_eeprom_read_loop memBus buf count n i drv s).buf
        = memcpy buf (ds1624_eeprom_read_loop memBus buf count n i drv s).drv.data count ∧
      ∀ j, (ds1624_eeprom_read_loop memBus buf count n i drv s).drv.data j
        = if i ≤ j ∧ j < i + n then s.mem j % 256 else drv.data j := by
  induction n with
  | zero =>
    intro i drv s _
    refine ⟨rfl, rfl, fun j => ?_⟩
    rw [if_neg (by omega)]
    rfl
  | succ n ih =>
    intro i drv s hin
    have hi : i % 256 = i := Nat.mod_eq_of_lt (by omega)
    have h := ih (i + 1)
      { drv with data := fun j => if j = i % 256 then
          (memBus (memBus s (Txn.write_byte_data DS1624_ACCESS_MEMORY (i % 256))).2
            (Txn.read_byte_data DS1624_ACCESS_MEMORY)).1.toNat &&& 0xff else drv.data j }
      (memBus (memBus s (Txn.write_byte_data DS1624_ACCESS_MEMORY (i % 256))).2
        (Txn.read_byte_data DS1624_ACCESS_MEMORY)).2 (by omega)
    simp only [ds1624_eeprom_read_loop, memBus_write_byte, memBus_read_byte,
      lt_self_iff_false, if_false, Int.natCast_nonneg, if_true]
    simp only [memBus_write_byte, memBus_read_byte] at h
    refine ⟨h.1, h.2.1, fun j => ?_⟩
    rw [h.2.2 j]
    simp only [hi, Int.toNat_ofNat, and_ff]
    by_cases hj : j = i
    · subst hj
      rw [if_neg (by omega), if_pos rfl, if_pos (by omega)]
    · by_cases hr : i + 1 ≤ j ∧ j < i + 1 + n
      · rw [if_pos hr, if_pos (by omega)]
      · rw [if_neg hr, if_neg hj, if_neg (by omega)]

theorem memcpy_take (dest : List Nat) (src : Nat → Nat) (n : Nat) :
    (memcpy dest src n).take n = (List.range n).map src := by
  unfold memcpy
  rw [List.take_append_eq_append_take]
  simp

/-- C5: round trip.  On the memory transport `memBus`, for every buffer `b`
of `N ≤ 256` bytes, every initial device memory `m` and every initial state
`drv` of the driver (its memory image included), `ds1624_eeprom_write` of `b`
returns `N`, and the `ds1624_eeprom_read` with count `N` that follows returns
`N` and delivers `b` in the first `N` bytes of the caller's buffer. -/
theorem C5_eeprom_write_then_read_round_trip (b : List Nat) (hb : ∀ x ∈ b, x < 256)
    (hN : b.length ≤ 256) (drv : Driver) (m : Mem) (buf : List Nat) (off1 off2 : Nat) :
    (ds1624_eeprom_write memBus drv m b off1 b.length).ret = (b.length : Int) ∧
      (ds1624_eeprom_read memBus (ds1624_eeprom_write memBus drv m b off1 b.length).drv
        (ds1624_eeprom_write memBus drv m b off1 b.length).bus buf off2 b.length).ret
        = (b.length : Int) ∧
      (ds1624_eeprom_read memBus (ds1624_eeprom_write memBus drv m b off1 b.length).drv
        (ds1624_eeprom_write memBus drv m b off1 b.length).bus buf off2 b.length).buf.take
          b.length = b := by
  have hw := eeprom_write_loop_memBus drv b b.length b.length 0 m (by omega)
  have hr := eeprom_read_loop_memBus buf b.length b.length 0
    (ds1624_eeprom_write memBus drv m b off1 b.length).drv
    (ds1624_eeprom_write memBus drv m b off1 b.length).bus (by omega)
  refine ⟨hw.1, hr.1, ?_⟩
  unfold ds1624_eeprom_read
  rw [hr.2.1, memcpy_take]
  apply List.ext_getElem
  · simp
  · intro j h1 h2
    have hj : j < b.length := h2
    rw [List.getElem_map, List.getElem_range, hr.2.2 j, if_pos (by omega)]
    have := hw.2.2 j
    unfold ds1624_eeprom_write
    rw [this, if_pos (by omega), List.getD_eq_getElem _ _ hj, Nat.mod_mod]
    exact Nat.mod_eq_of_lt (hb _ (List.getElem_mem hj))

/-- Witness of C5: three bytes written over a device full of `0xA5` are read
back unchanged into a caller's buffer of three bytes. -/
theorem C5_eeprom_write_then_read_round_trip_witness :
    (ds1624_eeprom_read memBus
        (ds1624_eeprom_write memBus Driver.init Mem.a5 [0x10, 0xFF, 0x00] 0 3).drv
        (ds1624_eeprom_write memBus Driver.init Mem.a5 [0x10, 0xFF, 0x00] 0 3).bus
        [1, 2, 3] 0 3).buf = [0x10, 0xFF, 0x00] :=
  (C5_eeprom_write_then_read_round_trip [0x10, 0xFF, 0x00] (by decide) (by decide)
    Driver.init Mem.a5 [1, 2, 3] 0 0).2.2

/-! ## The one-shot configuration across calls -/

theorem read_temp_trace {σ : Type} (bus : Bus σ) (drv : Driver) (s : σ)
    (temp0 off count : Nat) :
    ∃ r1 r2 r3, (ds1624_read_temp bus drv s temp0 off count).trace
      = (ds1624_read_temp_config bus drv s).2.2 ++
        [Event.txn (Txn.write_byte_data 0xEE 0) r1, Event.msleep 1000,
         Event.txn (Txn.read_word_data 0xAA) r2, Event.txn (Txn.write_byte_data 0x22 0) r3] :=
  ⟨_, _, _, rfl⟩

theorem read_temp_drv {σ : Type} (bus : Bus σ) (drv : Driver) (s : σ)
    (temp0 off count : Nat) :
    (ds1624_read_temp bus drv s temp0 off count).drv = (ds1624_read_temp_config bus drv s).1 :=
  rfl

theorem read_temp_config_cases {σ : Type} (bus : Bus σ) (drv : Driver) (s : σ) :
    (drv.config_done = true ∧ ds1624_read_temp_config bus drv s = (drv, s, [])) ∨
    (drv.config_done = false ∧ (bus s (Txn.write_byte_data 0xAC 0x01)).1 ≠ 0 ∧
      ds1624_read_temp_config bus drv s
        = (drv, (bus s (Txn.write_byte_data 0xAC 0x01)).2,
            [Event.txn (Txn.write_byte_data 0xAC 0x01)
              (bus s (Txn.write_byte_data 0xAC 0x01)).1])) ∨
    (drv.config_done = false ∧ (bus s (Txn.write_byte_data 0xAC 0x01)).1 = 0 ∧
      ds1624_read_temp_config bus drv s
        = ({ drv with config_done := true }, (bus s (Txn.write_byte_data 0xAC 0x01)).2,
            [Event.txn (Txn.write_byte_data 0xAC 0x01) 0, Event.msleep 30])) := by
  unfold ds1624_read_temp_config DS1624_ACCESS_CONFIG
  by_cases h : drv.config_done = false
  · by_cases h2 : (bus s (Txn.write_byte_data 0xAC 0x01)).1 = 0
    · right; right
      simp [h, h2]
    · right; left
      simp [h, h2]
  · left
    simp at h
    simp [h]

theorem read_temp_configured {σ : Type} (bus : Bus σ) (drv : Driver) (s : σ)
    (temp0 off count : Nat) (h : drv.config_done = true) :
    (ds1624_read_temp bus drv s temp0 off count).drv.config_done = true ∧
      ∀ r, Event.txn (Txn.write_byte_data 0xAC 0x01) r ∉
        (ds1624_read_temp bus drv s temp0 off count).trace := by
  obtain ⟨r1, r2, r3, ht⟩ := read_temp_trace bus drv s temp0 off count
  rw [ht, read_temp_drv]
  rcases read_temp_config_cases bus drv s with ⟨_, hc⟩ | ⟨h', _⟩ | ⟨h', _⟩
  · rw [hc]
    exact ⟨h, by simp⟩
  · rw [h] at h'; cases h'
  · rw [h] at h'; cases h'

theorem read_temp_config_success {σ : Type} (bus : Bus σ) (drv : Driver) (s : σ)
    (temp0 off count : Nat)
    (h : Event.txn (Txn.write_byte_data 0xAC 0x01) 0 ∈
      (ds1624_read_temp bus drv s temp0 off count).trace) :
    (ds1624_read_temp bus drv s temp0 off count).drv.config_done = true := by
  obtain ⟨r1, r2, r3, ht⟩ := read_temp_trace bus drv s temp0 off count
  rw [ht] at h
  rw [read_temp_drv]
  rcases read_temp_config_cases bus drv s with ⟨_, hc⟩ | ⟨_, hne, hc⟩ | ⟨_, _, hc⟩
  · rw [hc] at h; simp at h
  · rw [hc] at h
    simp at h
    exact absurd h.symm hne
  · rw [hc]

theorem read_temp_config_count {σ : Type} (bus : Bus σ) (drv : Driver) (s : σ)
    (temp0 off count : Nat) :
    (ds1624_read_temp bus drv s temp0 off count).trace.count
      (Event.txn (Txn.write_byte_data 0xAC 0x01) 0) ≤ 1 := by
  obtain ⟨r1, r2, r3, ht⟩ := read_temp_trace bus drv s temp0 off count
  rw [ht]
  rcases read_temp_config_cases bus drv s with ⟨_, hc⟩ | ⟨_, hne, hc⟩ | ⟨_, _, hc⟩ <;>
    rw [hc] <;> simp [List.count_cons]
  split <;> omega

theorem read_temp_calls_configured {σ : Type} (bus : Bus σ) (temps : List Nat) :
    ∀ (drv : Driver) (s : σ), drv.config_done = true →
      ∀ o ∈ ds1624_read_temp_calls bus drv s temps,
        o.drv.config_done = true ∧ ∀ r, Event.txn (Txn.write_byte_data 0xAC 0x01) r ∉ o.trace := by
  induction temps with
  | nil => intro drv s _ o ho; simp [ds1624_read_temp_calls] at ho
  | cons t ts ih =>
    intro drv s h o ho
    simp only [ds1624_read_temp_calls, List.mem_cons] at ho
    have h0 := read_temp_configured bus drv s t 0 2 h
    rcases ho with ho | ho
    · rw [ho]; exact h0
    · exact ih _ _ h0.1 o ho

theorem read_temp_calls_sticky {σ : Type} (bus : Bus σ) (temps : List Nat) :
    ∀ (drv : Driver) (s : σ) (i j : Nat) (oi oj : TempOutcome σ),
      (ds1624_read_temp_calls bus drv s temps)[i]? = some oi →
      (ds1624_read_temp_calls bus drv s temps)[j]? = some oj →
      i ≤ j →
      Event.txn (Txn.write_byte_data 0xAC 0x01) 0 ∈ oi.trace →
      oj.drv.config_done = true ∧
        (i < j → ∀ r, Event.txn (Txn.write_byte_data 0xAC 0x01) r ∉ oj.trace) := by
  induction temps with
  | nil => intro drv s i j oi oj hi; simp [ds1624_read_temp_calls] at hi
  | cons t ts ih =>
    intro drv s i j oi oj hi hj hij hcfg
    simp only [ds1624_read_temp_calls] at hi hj
    match i, j with
    | 0, 0 =>
      simp only [List.getElem?_cons_zero, Option.some.injEq] at hi hj
      subst hi
      subst hj
      exact ⟨read_temp_config_success bus drv s t 0 2 hcfg, fun h => absurd h (by omega)⟩
    | 0, j + 1 =>
      simp only [List.getElem?_cons_zero, Option.some.injEq] at hi
      simp only [List.getElem?_cons_succ] at hj
      subst hi
      have hd := read_temp_config_success bus drv s t 0 2 hcfg
      have := read_temp_calls_configured bus ts _ _ hd oj (List.getElem?_mem hj)
      exact ⟨this.1, fun _ => this.2⟩
    | i + 1, 0 => omega
    | i + 1, j + 1 =>
      simp only [List.getElem?_cons_succ] at hi hj
      have := ih _ _ i j oi oj hi hj (by omega) hcfg
      exact ⟨this.1, fun h => this.2 (by omega)⟩

theorem read_temp_calls_count {σ : Type} (bus : Bus σ) (temps : List Nat) :
    ∀ (drv : Driver) (s : σ),
      (((ds1624_read_temp_calls bus drv s temps).map TempOutcome.trace).flatten).count
        (Event.txn (Txn.write_byte_data 0xAC 0x01) 0) ≤ 1 := by
  induction temps with
  | nil => intro drv s; simp [ds1624_read_temp_calls]
  | cons t ts ih =>
    intro drv s
    simp only [ds1624_read_temp_calls, List.map_cons, List.flatten_cons, List.count_append]
    by_cases hcfg : Event.txn (Txn.write_byte_data 0xAC 0x01) 0 ∈
        (ds1624_read_temp bus drv s t 0 2).trace
    · have hd := read_temp_config_success bus drv s t 0 2 hcfg
      have hrest : (((ds1624_read_temp_calls bus (ds1624_read_temp bus drv s t 0 2).drv
          (ds1624_read_temp bus drv s t 0 2).bus ts).map TempOutcome.trace).flatten).count
          (Event.txn (Txn.write_byte_data 0xAC 0x01) 0) = 0 := by
        rw [List.count_eq_zero]
        intro hmem
        rw [List.mem_flatten] at hmem
        obtain ⟨l, hl, hin⟩ := hmem
        rw [List.mem_map] at hl
        obtain ⟨o, ho, rfl⟩ := hl
        exact (read_temp_calls_configured bus ts _ _ hd o ho).2 0 hin
      have := read_temp_config_count bus drv s t 0 2
      omega
    · have h0 : (ds1624_read_temp bus drv s t 0 2).trace.count
          (Event.txn (Txn.write_byte_data 0xAC 0x01) 0) = 0 := List.count_eq_zero.mpr hcfg
      have := ih (ds1624_read_temp bus drv s t 0 2).drv (ds1624_read_temp bus drv s t 0 2).bus
      omega

/-- C6: over any sequence of `ds1624_read_temp` calls on a device, whatever the
transport does and whatever state it starts from (`config_done = false`
included): if the configuration write write-byte(0xAC, 0x01) succeeds (returns
`0`) in call `i`, then `config_done` is true after call `i` and after every
later call `j`, and no later call issues the configuration write, with any
outcome; and the whole sequence holds at most one successful configuration
write. -/
theorem C6_config_issued_at_most_once {σ : Type} (bus : Bus σ) (drv : Driver) (s : σ)
    (temps : List Nat) :
    (∀ (i j : Nat) (oi oj : TempOutcome σ),
      (ds1624_read_temp_calls bus drv s temps)[i]? = some oi →
      (ds1624_read_temp_calls bus drv s temps)[j]? = some oj →
      i ≤ j →
      Event.txn (Txn.write_byte_data 0xAC 0x01) 0 ∈ oi.trace →
      oj.drv.config_done = true ∧
        (i < j → ∀ r, Event.txn (Txn.write_byte_data 0xAC 0x01) r ∉ oj.trace)) ∧
    (((ds1624_read_temp_calls bus drv s temps).map TempOutcome.trace).flatten).count
      (Event.txn (Txn.write_byte_data 0xAC 0x01) 0) ≤ 1 :=
  ⟨read_temp_calls_sticky bus temps drv s, read_temp_calls_count bus temps drv s⟩

/-- Witness of C6: two calls on a transport that never fails; the first
configures, the second starts from `config_done = true`, stays there and does
not configure. -/
theorem C6_config_issued_at_most_once_witness :
    (ds1624_read_temp scriptBus (ds1624_read_temp scriptBus Driver.init [] 7 0 2).drv
        (ds1624_read_temp scriptBus Driver.init [] 7 0 2).bus 7 0 2).drv.config_done = true ∧
      Event.txn (Txn.write_byte_data 0xAC 0x01) 0 ∉
        (ds1624_read_temp scriptBus (ds1624_read_temp scriptBus Driver.init [] 7 0 2).drv
          (ds1624_read_temp scriptBus Driver.init [] 7 0 2).bus 7 0 2).trace :=
  ⟨((C6_config_issued_at_most_once scriptBus Driver.init [] [7, 7]).1 0 1
      (ds1624_read_temp scriptBus Driver.init [] 7 0 2)
      (ds1624_read_temp scriptBus (ds1624_read_temp scriptBus Driver.init [] 7 0 2).drv
        (ds1624_read_temp scriptBus Driver.init [] 7 0 2).bus 7 0 2)
      rfl rfl (by decide) (by decide)).1,
   ((C6_config_issued_at_most_once scriptBus Driver.init [] [7, 7]).1 0 1
      (ds1624_read_temp scriptBus Driver.init [] 7 0 2)
      (ds1624_read_temp scriptBus (ds1624_read_temp scriptBus Driver.init [] 7 0 2).drv
        (ds1624_read_temp scriptBus Driver.init [] 7 0 2).bus 7 0 2)
      rfl rfl (by decide) (by decide)).2 (by decide) 0⟩

/-! ## Best-effort temperature acquisition -/

/-- C7: for every transport, whatever succeeds or fails, a call of
`ds1624_read_temp` issues, in this order, the configuration write
write-byte(0xAC, 0x01) exactly when `config_done` was false on entry, then
write-byte(0xEE, 0), read-word(0xAA) and write-byte(0x22, 0), and returns `2`,
which is no error code. -/
theorem C7_read_temp_best_effort {σ : Type} (bus : Bus σ) (drv : Driver) (s : σ)
    (temp0 off count : Nat) :
    requests (ds1624_read_temp bus drv s temp0 off count).trace
        = (if drv.config_done = false then [Txn.write_byte_data 0xAC 0x01] else []) ++
          [Txn.write_byte_data 0xEE 0, Txn.read_word_data 0xAA, Txn.write_byte_data 0x22 0] ∧
      (ds1624_read_temp bus drv s temp0 off count).ret = 2 ∧
      ¬ (ds1624_read_temp bus drv s temp0 off count).ret < 0 := by
  obtain ⟨r1, r2, r3, ht⟩ := read_temp_trace bus drv s temp0 off count
  refine ⟨?_, rfl, (by decide : ¬ (2 : Int) < 0)⟩
  rw [ht, requests_append]
  rcases read_temp_config_cases bus drv s with ⟨h, hc⟩ | ⟨h, _, hc⟩ | ⟨h, _, hc⟩ <;>
    rw [hc] <;> simp [h, requests]

/-! ## The offset argument -/

/-- C8: `ds1624_eeprom_read` and `ds1624_eeprom_write` ignore the offset: for
any two offsets, with the same count, buffer, transport and initial state, the
whole outcome (trace, return value, buffer, state) is the same; and when
`count > 0` the first transaction addresses byte 0: the read selects address
`0`, the write sends a word whose low byte is `0`. -/
theorem C8_eeprom_offset_ignored {σ : Type} (bus : Bus σ) (drv : Driver) (s : σ)
    (buf : List Nat) (off1 off2 count : Nat) :
    ds1624_eeprom_read bus drv s buf off1 count = ds1624_eeprom_read bus drv s buf off2 count ∧
      ds1624_eeprom_write bus drv s buf off1 count
        = ds1624_eeprom_write bus drv s buf off2 count ∧
      (0 < count →
        (requests (ds1624_eeprom_read bus drv s buf off1 count).trace).head?
            = some (Txn.write_byte_data 0x17 0) ∧
          ∃ v, (requests (ds1624_eeprom_write bus drv s buf off1 count).trace).head?
              = some (Txn.write_word_data 0x17 v) ∧ v % 256 = 0) := by
  refine ⟨rfl, rfl, fun hc => ?_⟩
  obtain ⟨n, rfl⟩ : ∃ n, count = n + 1 := ⟨count - 1, by omega⟩
  constructor
  · unfold ds1624_eeprom_read
    simp only [ds1624_eeprom_read_loop, DS1624_ACCESS_MEMORY]
    split
    · rfl
    · split <;> rfl
  · refine ⟨eeprom_write_val 0 (buf.getD 0 0), ?_, ?_⟩
    · unfold ds1624_eeprom_write
      simp only [ds1624_eeprom_write_loop, DS1624_ACCESS_MEMORY]
      split <;> rfl
    · rw [eeprom_write_val_eq]; omega

/-- Witness of C8: a read and a write of two bytes at offsets `0` and `100`. -/
theorem C8_eeprom_offset_ignored_witness :
    (requests (ds1624_eeprom_read memBus Driver.init Mem.a5 [0, 0] 100 2).trace).head?
        = some (Txn.write_byte_data 0x17 0) ∧
      ds1624_eeprom_write memBus Driver.init Mem.a5 [5, 6] 0 2
        = ds1624_eeprom_write memBus Driver.init Mem.a5 [5, 6] 100 2 :=
  ⟨((C8_eeprom_offset_ignored memBus Driver.init Mem.a5 [0, 0] 100 0 2).2.2 (by decide)).1,
   (C8_eeprom_offset_ignored memBus Driver.init Mem.a5 [5, 6] 0 100 2).2.1⟩

/-! ## The byte count -/

/-- C9 (counterexample): with count `257` on the memory transport, which never
fails, `ds1624_eeprom_write` and `ds1624_eeprom_read` return the byte count
`257`, not an error. -/
theorem C9_count_257_not_rejected :
    (ds1624_eeprom_write memBus Driver.init Mem.a5 (List.replicate 257 0) 0 257).ret = 257 ∧
      ¬ (ds1624_eeprom_write memBus Driver.init Mem.a5 (List.replicate 257 0) 0 257).ret < 0 ∧
      (ds1624_eeprom_read memBus Driver.init Mem.a5 (List.replicate 257 0) 0 257).ret = 257 := by
  have hw := (eeprom_write_loop_ok memBus memBus_allSucceed Driver.init
    (List.replicate 257 0) 257 257 0 Mem.a5).2
  have hr := (eeprom_read_loop_ok memBus memBus_allSucceed (List.replicate 257 0) 257 257 0
    Driver.init Mem.a5).2
  refine ⟨hw, ?_, hr⟩
  unfold ds1624_eeprom_write
  rw [hw]
  decide

/-- C9 (amended): the memory paths check no bound on the count.  On a
transport on which every transaction succeeds, `ds1624_eeprom_read` and
`ds1624_eeprom_write` run to completion and return `count` for every `count`:
for `count = 256` they return `256`, and for `count > 256` they return `count`
as well. -/
theorem C9_eeprom_no_bound_check {σ : Type} (bus : Bus σ) (hbus : AllSucceed bus)
    (drv : Driver) (s : σ) (buf : List Nat) (off count : Nat) :
    (ds1624_eeprom_read bus drv s buf off count).ret = (count : Int) ∧
      (ds1624_eeprom_write bus drv s buf off count).ret = (count : Int) :=
  ⟨(eeprom_read_loop_ok bus hbus buf count count 0 drv s).2,
   (eeprom_write_loop_ok bus hbus drv buf count count 0 s).2⟩

/-- Witness of C9 (amended): count `256` on the memory transport. -/
theorem C9_eeprom_no_bound_check_witness :
    (ds1624_eeprom_read memBus Driver.init Mem.a5 [] 0 256).ret = 256 ∧
      (ds1624_eeprom_write memBus Driver.init Mem.a5 (List.replicate 256 1) 0 256).ret = 256 :=
  ⟨(C9_eeprom_no_bound_check memBus memBus_allSucceed Driver.init Mem.a5 [] 0 256).1,
   (C9_eeprom_no_bound_check memBus memBus_allSucceed Driver.init Mem.a5
      (List.replicate 256 1) 0 256).2⟩

/-- C10: with `count = 0`, on every transport and from every state,
`ds1624_eeprom_read` and `ds1624_eeprom_write` have an empty trace (no
transaction, no wait), return `0`, leave the caller's buffer, the statics of
the driver (the memory image included) and the transport as they were. -/
theorem C10_eeprom_count_zero {σ : Type} (bus : Bus σ) (drv : Driver) (s : σ)
    (buf : List Nat) (off : Nat) :
    ((ds1624_eeprom_read bus drv s buf off 0).trace = [] ∧
      (ds1624_eeprom_read bus drv s buf off 0).ret = 0 ∧
      (ds1624_eeprom_read bus drv s buf off 0).buf = buf ∧
      (ds1624_eeprom_read bus drv s buf off 0).drv = drv ∧
      (ds1624_eeprom_read bus drv s buf off 0).bus = s) ∧
    ((ds1624_eeprom_write bus drv s buf off 0).trace = [] ∧
      (ds1624_eeprom_write bus drv s buf off 0).ret = 0 ∧
      (ds1624_eeprom_write bus drv s buf off 0).buf = buf ∧
      (ds1624_eeprom_write bus drv s buf off 0).drv = drv ∧
      (ds1624_eeprom_write bus drv s buf off 0).bus = s) :=
  ⟨⟨rfl, rfl, by simp [ds1624_eeprom_read, ds1624_eeprom_read_loop, memcpy], rfl, rfl⟩,
   ⟨rfl, rfl, rfl, rfl, rfl⟩⟩

/-! ## Memory read: the image and the delivered bytes -/

theorem eeprom_read_loop_image {σ : Type} (bus : Bus σ) (hbus : AllSucceed bus)
    (buf : List Nat) (count : Nat) (n : Nat) : ∀ (i : Nat) (drv : Driver) (s : σ),
    (ds1624_eeprom_read_loop bus buf count n i drv s).buf
        = memcpy buf (ds1624_eeprom_read_loop bus buf count n i drv s).drv.data count ∧
      (read_byte_rets (ds1624_eeprom_read_loop bus buf count n i drv s).trace).length = n ∧
      (∀ k, k < n → n ≤ k + 256 →
        ∃ r, (read_byte_rets (ds1624_eeprom_read_loop bus buf count n i drv s).trace)[k]?
            = some r ∧
          (ds1624_eeprom_read_loop bus buf count n i drv s).drv.data ((i + k) % 256)
            = r.toNat % 256) ∧
      (∀ a, (∀ k, k < n → (i + k) % 256 ≠ a) →
        (ds1624_eeprom_read_loop bus buf count n i drv s).drv.data a = drv.data a) := by
  induction n with
  | zero =>
    intro i drv s
    exact ⟨rfl, rfl, fun k hk => absurd hk (by omega), fun a _ => rfl⟩
  | succ n ih =>
    intro i drv s
    have h1 := hbus s (Txn.write_byte_data DS1624_ACCESS_MEMORY (i % 256))
    have h2 := hbus (bus s (Txn.write_byte_data DS1624_ACCESS_MEMORY (i % 256))).2
      (Txn.read_byte_data DS1624_ACCESS_MEMORY)
    have h := ih (i + 1)
      { drv with data := fun j => if j = i % 256 then
          (bus (bus s (Txn.write_byte_data DS1624_ACCESS_MEMORY (i % 256))).2
            (Txn.read_byte_data DS1624_ACCESS_MEMORY)).1.toNat &&& 0xff else drv.data j }
      (bus (bus s (Txn.write_byte_data DS1624_ACCESS_MEMORY (i % 256))).2
        (Txn.read_byte_data DS1624_ACCESS_MEMORY)).2
    simp only [ds1624_eeprom_read_loop, if_neg (not_lt.mpr h1), if_pos h2, read_byte_rets,
      List.length_cons]
    obtain ⟨hb, hl, hk, ha⟩ := h
    refine ⟨hb, by rw [hl], fun k hkn hwrap => ?_, fun a hmiss => ?_⟩
    · match k with
      | 0 =>
        refine ⟨(bus (bus s (Txn.write_byte_data DS1624_ACCESS_MEMORY (i % 256))).2
          (Txn.read_byte_data DS1624_ACCESS_MEMORY)).1, List.getElem?_cons_zero, ?_⟩
        have e : (i + 0) % 256 = i % 256 := rfl
        rw [e, ha (i % 256) (fun k hk => by omega)]
        simp only [if_true, and_ff]
      | k + 1 =>
        obtain ⟨r, hr, hd⟩ := hk k (by omega) (by omega)
        refine ⟨r, by simpa only [List.getElem?_cons_succ] using hr, ?_⟩
        rw [show i + (k + 1) = i + 1 + k by omega]
        exact hd
    · rw [ha a (fun k hk => by
        have := hmiss (k + 1) (by omega)
        rwa [show i + (k + 1) = i + 1 + k by omega] at this)]
      have h0 := hmiss 0 (by omega)
      simp only [Nat.add_zero] at h0
      simp only [if_neg (Ne.symm h0)]

theorem eeprom_read_loop_any_image {σ : Type} (bus : Bus σ) (buf : List Nat) (count : Nat)
    (n : Nat) : ∀ (i : Nat) (drv1 drv2 : Driver) (s : σ),
    (ds1624_eeprom_read_loop bus buf count n i drv1 s).trace
        = (ds1624_eeprom_read_loop bus buf count n i drv2 s).trace ∧
      (ds1624_eeprom_read_loop bus buf count n i drv1 s).ret
        = (ds1624_eeprom_read_loop bus buf count n i drv2 s).ret := by
  induction n with
  | zero => intro i drv1 drv2 s; exact ⟨rfl, rfl⟩
  | succ n ih =>
    intro i drv1 drv2 s
    simp only [ds1624_eeprom_read_loop]
    split
    · exact ⟨rfl, rfl⟩
    · split
      · exact ⟨by rw [(ih _ _ _ _).1], (ih _ _ _ _).2⟩
      · exact ⟨rfl, rfl⟩

theorem eeprom_read_delivered {σ : Type} (bus : Bus σ) (hbus : AllSucceed bus)
    (drv : Driver) (s : σ) (buf : List Nat) (off N : Nat) (hN : N ≤ 256) :
    (ds1624_eeprom_read bus drv s buf off N).buf
      = (read_byte_rets (ds1624_eeprom_read bus drv s buf off N).trace).map
          (fun r => r.toNat % 256) ++ buf.drop N := by
  obtain ⟨hb, hl, hk, _⟩ := eeprom_read_loop_image bus hbus buf N N 0 drv s
  unfold ds1624_eeprom_read
  rw [hb, memcpy]
  congr 1
  apply List.ext_getElem
  · simp [hl]
  · intro j h1 h2
    have hj : j < N := by simpa using h1
    obtain ⟨r, hr, hd⟩ := hk j hj (by omega)
    rw [Nat.zero_add, Nat.mod_eq_of_lt (by omega)] at hd
    rw [List.getElem_map, List.getElem_range, hd, List.getElem_map]
    have hlt : j < (read_byte_rets (ds1624_eeprom_read_loop bus buf N N 0 drv s).trace).length := by
      rw [hl]; exact hj
    rw [List.getElem?_eq_getElem hlt] at hr
    injection hr with hr
    rw [hr]

/-- C11: on a transport on which every transaction succeeds, and for
`N ≤ 256`, `ds1624_eeprom_read` returns `N`, performs `N` read-byte
transactions, and the first `N` bytes of the caller's buffer are, in order, the
low 8 bits of the values those read-byte transactions returned in this call
(the rest of the buffer is kept).  The trace, the return value and the
delivered buffer are the same whatever the statics, the memory image included,
held before the call. -/
theorem C11_eeprom_read_delivers_bytes_read {σ : Type} (bus : Bus σ) (hbus : AllSucceed bus)
    (drv : Driver) (s : σ) (buf : List Nat) (off N : Nat) (hN : N ≤ 256) :
    (ds1624_eeprom_read bus drv s buf off N).ret = (N : Int) ∧
      (read_byte_rets (ds1624_eeprom_read bus drv s buf off N).trace).length = N ∧
      (ds1624_eeprom_read bus drv s buf off N).buf
        = (read_byte_rets (ds1624_eeprom_read bus drv s buf off N).trace).map
            (fun r => r.toNat % 256) ++ buf.drop N ∧
      ∀ drv2 : Driver,
        (ds1624_eeprom_read bus drv2 s buf off N).trace
            = (ds1624_eeprom_read bus drv s buf off N).trace ∧
          (ds1624_eeprom_read bus drv2 s buf off N).ret
            = (ds1624_eeprom_read bus drv s buf off N).ret ∧
          (ds1624_eeprom_read bus drv2 s buf off N).buf
            = (ds1624_eeprom_read bus drv s buf off N).buf := by
  refine ⟨(eeprom_read_loop_ok bus hbus buf N N 0 drv s).2,
    (eeprom_read_loop_image bus hbus buf N N 0 drv s).2.1,
    eeprom_read_delivered bus hbus drv s buf off N hN, fun drv2 => ?_⟩
  have ht := eeprom_read_loop_any_image bus buf N N 0 drv2 drv s
  refine ⟨ht.1, ht.2, ?_⟩
  rw [eeprom_read_delivered bus hbus drv2 s buf off N hN,
    eeprom_read_delivered bus hbus drv s buf off N hN]
  unfold ds1624_eeprom_read
  rw [ht.1]

/-- Witness of C11: the memory transport holds `0xA5` everywhere; a read of two
bytes into `[1, 2, 3]` from a driver whose image is zero delivers
`[0xA5, 0xA5, 3]`. -/
theorem C11_eeprom_read_delivers_bytes_read_witness :
    (ds1624_eeprom_read memBus Driver.init Mem.a5 [1, 2, 3] 0 2).buf = [0xA5, 0xA5, 3] ∧
      read_byte_rets (ds1624_eeprom_read memBus Driver.init Mem.a5 [1, 2, 3] 0 2).trace
        = [0xA5, 0xA5] :=
  ⟨(C11_eeprom_read_delivers_bytes_read memBus memBus_allSucceed Driver.init Mem.a5
      [1, 2, 3] 0 2 (by decide)).2.2.1,
   by decide⟩

/-! ## One call of the temperature path: flag and waits -/

theorem read_temp_shapes {σ : Type} (bus : Bus σ) (drv : Driver) (s : σ)
    (temp0 off count : Nat) :
    ∃ r1 r2 r3,
      (drv.config_done = true ∧
        (ds1624_read_temp bus drv s temp0 off count).drv = drv ∧
        (ds1624_read_temp bus drv s temp0 off count).trace
          = [Event.txn (Txn.write_byte_data 0xEE 0) r1, Event.msleep 1000,
             Event.txn (Txn.read_word_data 0xAA) r2,
             Event.txn (Txn.write_byte_data 0x22 0) r3]) ∨
      (drv.config_done = false ∧ (bus s (Txn.write_byte_data 0xAC 0x01)).1 ≠ 0 ∧
        (ds1624_read_temp bus drv s temp0 off count).drv = drv ∧
        (ds1624_read_temp bus drv s temp0 off count).trace
          = [Event.txn (Txn.write_byte_data 0xAC 0x01)
               (bus s (Txn.write_byte_data 0xAC 0x01)).1,
             Event.txn (Txn.write_byte_data 0xEE 0) r1, Event.msleep 1000,
             Event.txn (Txn.read_word_data 0xAA) r2,
             Event.txn (Txn.write_byte_data 0x22 0) r3]) ∨
      (drv.config_done = false ∧ (bus s (Txn.write_byte_data 0xAC 0x01)).1 = 0 ∧
        (ds1624_read_temp bus drv s temp0 off count).drv = { drv with config_done := true } ∧
        (ds1624_read_temp bus drv s temp0 off count).trace
          = [Event.txn (Txn.write_byte_data 0xAC 0x01) 0, Event.msleep 30,
             Event.txn (Txn.write_byte_data 0xEE 0) r1, Event.msleep 1000,
             Event.txn (Txn.read_word_data 0xAA) r2,
             Event.txn (Txn.write_byte_data 0x22 0) r3]) := by
  obtain ⟨r1, r2, r3, ht⟩ := read_temp_trace bus drv s temp0 off count
  refine ⟨r1, r2, r3, ?_⟩
  rw [ht, read_temp_drv]
  rcases read_temp_config_cases bus drv s with ⟨h, hc⟩ | ⟨h, hne, hc⟩ | ⟨h, he, hc⟩
  · left; rw [hc]; exact ⟨h, rfl, rfl⟩
  · right; left; rw [hc]; exact ⟨h, hne, rfl, rfl⟩
  · right; right; rw [hc]; exact ⟨h, he, rfl, rfl⟩

/-- C12: one call of `ds1624_read_temp` leaves `config_done` true exactly when
it was true on entry or the call's trace holds the configuration write
write-byte(0xAC, 0x01) with return value `0`.  In particular, when
`config_done` is false and the configuration write fails (returns non-zero),
`config_done` is still false after the call, the call still issues start,
read-word and stop after the configuration write, and the next call, whatever
its arguments, begins with the configuration write again. -/
theorem C12_config_done_update {σ : Type} (bus : Bus σ) (drv : Driver) (s : σ)
    (temp0 off count : Nat) :
    ((ds1624_read_temp bus drv s temp0 off count).drv.config_done = true ↔
      (drv.config_done = true ∨
        Event.txn (Txn.write_byte_data 0xAC 0x01) 0 ∈
          (ds1624_read_temp bus drv s temp0 off count).trace)) ∧
    (drv.config_done = false → (bus s (Txn.write_byte_data 0xAC 0x01)).1 ≠ 0 →
      (ds1624_read_temp bus drv s temp0 off count).drv.config_done = false ∧
        requests (ds1624_read_temp bus drv s temp0 off count).trace
          = [Txn.write_byte_data 0xAC 0x01, Txn.write_byte_data 0xEE 0,
             Txn.read_word_data 0xAA, Txn.write_byte_data 0x22 0] ∧
        ∀ temp1 off1 count1 : Nat,
          (requests (ds1624_read_temp bus (ds1624_read_temp bus drv s temp0 off count).drv
              (ds1624_read_temp bus drv s temp0 off count).bus temp1 off1 count1).trace).head?
            = some (Txn.write_byte_data 0xAC 0x01)) := by
  obtain ⟨r1, r2, r3, hshape⟩ := read_temp_shapes bus drv s temp0 off count
  constructor
  · rcases hshape with ⟨h, hd, ht⟩ | ⟨h, hne, hd, ht⟩ | ⟨h, he, hd, ht⟩
    · rw [hd, ht]; simp [h]
    · rw [hd, ht]
      simp only [h, false_or, Bool.false_eq_true, false_iff, List.mem_cons, List.not_mem_nil,
        or_false]
      rintro (hx | hx | hx | hx | hx)
      · injection hx with _ hx
        exact hne hx.symm
      · cases hx
      · cases hx
      · cases hx
      · cases hx
    · rw [hd, ht]; simp
  · intro hfalse hfail
    rcases hshape with ⟨h, _, _⟩ | ⟨_, _, hd, ht⟩ | ⟨_, he, _, _⟩
    · rw [hfalse] at h; cases h
    · refine ⟨by rw [hd]; exact hfalse, by rw [ht]; rfl, fun temp1 off1 count1 => ?_⟩
      rw [hd]
      obtain ⟨q1, q2, q3, hnext⟩ := read_temp_shapes bus drv
        (ds1624_read_temp bus drv s temp0 off count).bus temp1 off1 count1
      rcases hnext with ⟨h, _, _⟩ | ⟨_, _, _, ht2⟩ | ⟨_, _, _, ht2⟩
      · rw [hfalse] at h; cases h
      · rw [ht2]; rfl
      · rw [ht2]; rfl
    · exact absurd he hfail

/-- Witness of C12: the configuration write fails with `-5`; the flag stays
false and the call still does start, read-word and stop. -/
theorem C12_config_done_update_witness :
    (ds1624_read_temp scriptBus Driver.init [-5, 0, 0x1234, 0] 0 0 2).drv.config_done = false ∧
      requests (ds1624_read_temp scriptBus Driver.init [-5, 0, 0x1234, 0] 0 0 2).trace
        = [Txn.write_byte_data 0xAC 0x01, Txn.write_byte_data 0xEE 0,
           Txn.read_word_data 0xAA, Txn.write_byte_data 0x22 0] :=
  ⟨((C12_config_done_update scriptBus Driver.init [-5, 0, 0x1234, 0] 0 0 2).2
      rfl (by decide)).1,
   ((C12_config_done_update scriptBus Driver.init [-5, 0, 0x1234, 0] 0 0 2).2
      rfl (by decide)).2.1⟩

/-- C13: with the waits as events of the trace, the trace of every call of
`ds1624_read_temp` has one of three shapes: start, wait 1000, read-word, stop
(no configuration write); a configuration write that failed, then start, wait
1000, read-word, stop; or a configuration write that returned `0`, wait 30,
start, wait 1000, read-word, stop.  So there is exactly one 1000 ms wait,
between the start write and the read-word whatever the start write returned,
and a 30 ms wait, right after the configuration write and before the start
write, exactly when the configuration write was issued and succeeded; the
waits add up to 1030 ms in that case and to 1000 ms otherwise. -/
theorem C13_read_temp_waits {σ : Type} (bus : Bus σ) (drv : Driver) (s : σ)
    (temp0 off count : Nat) :
    (∃ r1 r2 r3,
      (ds1624_read_temp bus drv s temp0 off count).trace
          = [Event.txn (Txn.write_byte_data 0xEE 0) r1, Event.msleep 1000,
             Event.txn (Txn.read_word_data 0xAA) r2,
             Event.txn (Txn.write_byte_data 0x22 0) r3] ∨
        (∃ rc, rc ≠ 0 ∧ (ds1624_read_temp bus drv s temp0 off count).trace
          = [Event.txn (Txn.write_byte_data 0xAC 0x01) rc,
             Event.txn (Txn.write_byte_data 0xEE 0) r1, Event.msleep 1000,
             Event.txn (Txn.read_word_data 0xAA) r2,
             Event.txn (Txn.write_byte_data 0x22 0) r3]) ∨
        (ds1624_read_temp bus drv s temp0 off count).trace
          = [Event.txn (Txn.write_byte_data 0xAC 0x01) 0, Event.msleep 30,
             Event.txn (Txn.write_byte_data 0xEE 0) r1, Event.msleep 1000,
             Event.txn (Txn.read_word_data 0xAA) r2,
             Event.txn (Txn.write_byte_data 0x22 0) r3]) ∧
    waits (ds1624_read_temp bus drv s temp0 off count).trace
      = (if Event.txn (Txn.write_byte_data 0xAC 0x01) 0 ∈
            (ds1624_read_temp bus drv s temp0 off count).trace
          then [30, 1000] else [1000]) ∧
    (waits (ds1624_read_temp bus drv s temp0 off count).trace).sum
      = (if Event.txn (Txn.write_byte_data 0xAC 0x01) 0 ∈
            (ds1624_read_temp bus drv s temp0 off count).trace
          then 1030 else 1000) := by
  obtain ⟨r1, r2, r3, hshape⟩ := read_temp_shapes bus drv s temp0 off count
  rcases hshape with ⟨_, _, ht⟩ | ⟨_, hne, _, ht⟩ | ⟨_, _, _, ht⟩
  · refine ⟨⟨r1, r2, r3, Or.inl ht⟩, ?_, ?_⟩ <;> rw [ht] <;> simp [waits]
  · have hne2 : ¬ (0 = (bus s (Txn.write_byte_data 0xAC 0x01)).1) := fun h => hne h.symm
    refine ⟨⟨r1, r2, r3, Or.inr (Or.inl ⟨_, hne, ht⟩)⟩, ?_, ?_⟩ <;> rw [ht] <;>
      simp [waits, hne2]
  · refine ⟨⟨r1, r2, r3, Or.inr (Or.inr ht)⟩, ?_, ?_⟩ <;> rw [ht] <;> simp [waits]

/-! ## The sample after a failed read -/

/-- C14 (counterexample): two calls on one device.  The first reads `0x1234`
and returns the sample `0x3412`.  In the second the read-word fails with `-5`
and the local `temp` holds `7` on entry: the sample returned is `7`, not the
sample of the first call. -/
theorem C14_failed_read_sample_not_previous :
    (ds1624_read_temp_calls scriptBus Driver.init [0, 0, 0x1234, 0, 0, -5, 0] [0, 7]).map
        TempOutcome.sample = [0x3412, 7] ∧
      (ds1624_read_temp_calls scriptBus Driver.init [0, 0, 0x1234, 0, 0, -5, 0] [0, 7]).map
        (fun o => decide (Event.txn (Txn.read_word_data 0xAA) (-5) ∈ o.trace))
        = [false, true] := by
  decide

/-- C14 (amended): when the read-word of the temperature register fails
(returns a negative code) in a call of `ds1624_read_temp`, the call assigns
nothing to `temp`: the sample it returns is the value the local `temp` held on
entry to this call. -/
theorem C14_failed_read_keeps_entry_value {σ : Type} (bus : Bus σ) (drv : Driver) (s : σ)
    (temp0 off count : Nat) (r : Int) (hr : r < 0)
    (hread : Event.txn (Txn.read_word_data 0xAA) r ∈
      (ds1624_read_temp bus drv s temp0 off count).trace) :
    (ds1624_read_temp bus drv s temp0 off count).sample = temp0 := by
  have hret : (bus (bus (ds1624_read_temp_config bus drv s).2.1
      (Txn.write_byte_data DS1624_START_CONV 0x0)).2 (Txn.read_word_data DS1624_READ_TEMP)).1
      = r := by
    simp only [ds1624_read_temp, List.mem_append, List.mem_cons, List.not_mem_nil,
      or_false] at hread
    rcases hread with h | h | h | h | h
    · exact absurd h (read_temp_config_no_read_word bus drv s _ _)
    · cases h
    · cases h
    · injection h with _ h
      exact h.symm
    · cases h
  simp only [ds1624_read_temp, hret, if_pos hr]

/-- Witness of C14 (amended): the read-word fails with `-5` while `temp` holds
`7`. -/
theorem C14_failed_read_keeps_entry_value_witness :
    (ds1624_read_temp scriptBus Driver.init [0, 0, -5, 0] 7 0 2).sample = 7 :=
  C14_failed_read_keeps_entry_value scriptBus Driver.init [0, 0, -5, 0] 7 0 2 (-5)
    (by decide) (by decide)

/-! ## Two devices -/

/-- C15 (counterexample): from the initial state, device A (the scripted
transport, every transaction returning `0`) is read and configured
successfully; the first acquisition on device B (the memory transport) that
follows issues start, read-word and stop only, with no configuration write. -/
theorem C15_second_device_not_configured :
    requests (ds1624_read_temp scriptBus Driver.init [] 0 0 2).trace
        = [Txn.write_byte_data 0xAC 0x01, Txn.write_byte_data 0xEE 0,
           Txn.read_word_data 0xAA, Txn.write_byte_data 0x22 0] ∧
      requests (ds1624_read_temp memBus
          (ds1624_read_temp scriptBus Driver.init [] 0 0 2).drv Mem.a5 0 0 2).trace
        = [Txn.write_byte_data 0xEE 0, Txn.read_word_data 0xAA,
           Txn.write_byte_data 0x22 0] := by
  decide

/-- C15 (amended): `config_done` is one flag for all devices.  If it is false
and a call of `ds1624_read_temp` on device A configures successfully (the
configuration write returns `0`), then a following call on any other device B,
whatever B's transport does, issues start, read-word and stop only: no
configuration write is sent to B, and the flag stays true. -/
theorem C15_config_flag_shared {σ τ : Type} (busA : Bus σ) (busB : Bus τ) (drv : Driver)
    (sA : σ) (sB : τ) (tempA tempB offA offB countA countB : Nat)
    (hfalse : drv.config_done = false)
    (hok : (busA sA (Txn.write_byte_data 0xAC 0x01)).1 = 0) :
    requests (ds1624_read_temp busB
        (ds1624_read_temp busA drv sA tempA offA countA).drv sB tempB offB countB).trace
        = [Txn.write_byte_data 0xEE 0, Txn.read_word_data 0xAA,
           Txn.write_byte_data 0x22 0] ∧
      (ds1624_read_temp busB
        (ds1624_read_temp busA drv sA tempA offA countA).drv sB tempB offB
          countB).drv.config_done = true := by
  obtain ⟨r1, r2, r3, hA⟩ := read_temp_shapes busA drv sA tempA offA countA
  have hdA : (ds1624_read_temp busA drv sA tempA offA countA).drv.config_done = true := by
    rcases hA with ⟨h, _, _⟩ | ⟨_, hne, _, _⟩ | ⟨_, _, hd, _⟩
    · rw [hfalse] at h; cases h
    · exact absurd hok hne
    · rw [hd]
  obtain ⟨q1, q2, q3, hB⟩ := read_temp_shapes busB
    (ds1624_read_temp busA drv sA tempA offA countA).drv sB tempB offB countB
  rcases hB with ⟨_, hd, ht⟩ | ⟨h, _, _, _⟩ | ⟨h, _, _, _⟩
  · rw [hd, ht]
    exact ⟨rfl, hdA⟩
  · rw [hdA] at h; cases h
  · rw [hdA] at h; cases h

/-- Witness of C15 (amended): device A is the scripted transport, device B the
memory transport. -/
theorem C15_config_flag_shared_witness :
    (ds1624_read_temp memBus (ds1624_read_temp scriptBus Driver.init [] 0 0 2).drv
        Mem.a5 0 0 2).drv.config_done = true :=
  (C15_config_flag_shared scriptBus memBus Driver.init [] Mem.a5 0 0 0 0 2 2 rfl
    (by decide)).2

/-! ## Counts above 256: the address wraps -/

theorem eeprom_read_steps_getElem (n : Nat) : ∀ (i k : Nat), k < n →
    (((List.range' i n).map eeprom_read_step).flatten)[2 * k]?
        = some (Txn.write_byte_data 0x17 ((i + k) % 256)) ∧
      (((List.range' i n).map eeprom_read_step).flatten)[2 * k + 1]?
        = some (Txn.read_byte_data 0x17) := by
  induction n with
  | zero => intro i k hk; omega
  | succ n ih =>
    intro i k hk
    rw [eeprom_read_steps_succ]
    match k with
    | 0 => exact ⟨by simp [DS1624_ACCESS_MEMORY], by simp [DS1624_ACCESS_MEMORY]⟩
    | k + 1 =>
      have h := ih (i + 1) k (by omega)
      rw [show 2 * (k + 1) = 2 * k + 1 + 1 by omega, show i + (k + 1) = i + 1 + k by omega]
      simp only [List.getElem?_cons_succ]
      exact h

theorem eeprom_write_loop_memBus_wrap (drv : Driver) (buf : List Nat) (count : Nat)
    (n : Nat) : ∀ (i : Nat) (s : Mem),
    (∀ k, k < n → n ≤ k + 256 →
      (ds1624_eeprom_write_loop memBus drv buf count n i s).bus.mem ((i + k) % 256)
        = buf.getD (i + k) 0 % 256) ∧
    (∀ a, (∀ k, k < n → (i + k) % 256 ≠ a) →
      (ds1624_eeprom_write_loop memBus drv buf count n i s).bus.mem a = s.mem a) := by
  induction n with
  | zero =>
    intro i s
    exact ⟨fun k hk => absurd hk (by omega), fun a _ => rfl⟩
  | succ n ih =>
    intro i s
    have h := ih (i + 1)
      (memBus s (Txn.write_word_data DS1624_ACCESS_MEMORY
        (eeprom_write_val i (buf.getD i 0)))).2
    simp only [ds1624_eeprom_write_loop, memBus_write_word, lt_self_iff_false, if_false]
    rw [memBus_write_word] at h
    have hlow : eeprom_write_val i (buf.getD i 0) % 256 = i % 256 := by
      rw [eeprom_write_val_eq]; omega
    have hhigh : eeprom_write_val i (buf.getD i 0) / 256 % 256 = buf.getD i 0 % 256 := by
      rw [eeprom_write_val_eq]
      have := Nat.mod_lt i (show 256 > 0 by decide)
      omega
    simp only [hlow, hhigh] at h ⊢
    obtain ⟨hk, ha⟩ := h
    refine ⟨fun k hkn hwrap => ?_, fun a hmiss => ?_⟩
    · match k with
      | 0 =>
        have e : (i + 0) % 256 = i % 256 := rfl
        rw [e, ha (i % 256) (fun k hk => by omega)]
        simp only [if_true, Nat.add_zero]
      | k + 1 =>
        rw [show i + (k + 1) = i + 1 + k by omega]
        exact hk k (by omega) (by omega)
    · rw [ha a (fun k hk => by
        have := hmiss (k + 1) (by omega)
        rwa [show i + (k + 1) = i + 1 + k by omega] at this)]
      have h0 := hmiss 0 (by omega)
      simp only [Nat.add_zero] at h0
      simp only [if_neg (Ne.symm h0)]

/-- C16: on a transport on which every transaction succeeds, for every count
`N`, above 256 included, and every `i < N`: the `i`-th address-select of
`ds1624_eeprom_read` is write-byte(0x17, i mod 256), followed by its
read-byte; the `i`-th transaction of `ds1624_eeprom_write` on `bytes` is
write-word(0x17, v) with low byte `i mod 256` and high byte `bytes[i]`.  Hence
the selects `i` and `i - 256` carry the same address; after the read, the
image slot `i mod 256` holds the low 8 bits of the `i`-th byte read, for every
`i` that no later iteration maps to the same slot; and on the memory transport
the device byte `i mod 256` holds `bytes[i]` for every such `i` (the later
write has overwritten the earlier one). -/
theorem C16_address_wraps_mod_256 {σ : Type} (bus : Bus σ) (hbus : AllSucceed bus)
    (drv : Driver) (s : σ) (m : Mem) (buf bytes : List Nat) (off N : Nat) :
    (∀ i, i < N →
      (requests (ds1624_eeprom_read bus drv s buf off N).trace)[2 * i]?
          = some (Txn.write_byte_data 0x17 (i % 256)) ∧
        (requests (ds1624_eeprom_read bus drv s buf off N).trace)[2 * i + 1]?
          = some (Txn.read_byte_data 0x17)) ∧
    (∀ i (hi : i < bytes.length),
      (requests (ds1624_eeprom_write bus drv s bytes off bytes.length).trace)[i]?
        = some (Txn.write_word_data 0x17 (i % 256 + 256 * (bytes[i] % 256)))) ∧
    (∀ i, 256 ≤ i → i < N →
      (requests (ds1624_eeprom_read bus drv s buf off N).trace)[2 * i]?
        = (requests (ds1624_eeprom_read bus drv s buf off N).trace)[2 * (i - 256)]?) ∧
    (∀ i, i < N → N ≤ i + 256 →
      ∃ r, (read_byte_rets (ds1624_eeprom_read bus drv s buf off N).trace)[i]? = some r ∧
        (ds1624_eeprom_read bus drv s buf off N).drv.data (i % 256) = r.toNat % 256) ∧
    (∀ i (hi : i < bytes.length), bytes.length ≤ i + 256 →
      (ds1624_eeprom_write memBus drv m bytes off bytes.length).bus.mem (i % 256)
        = bytes[i] % 256) := by
  have hr : requests (ds1624_eeprom_read bus drv s buf off N).trace
      = ((List.range' 0 N).map eeprom_read_step).flatten :=
    (eeprom_read_loop_ok bus hbus buf N N 0 drv s).1
  have hw : requests (ds1624_eeprom_write bus drv s bytes off bytes.length).trace
      = (List.range' 0 bytes.length).map (eeprom_write_txn bytes) :=
    (eeprom_write_loop_ok bus hbus drv bytes bytes.length bytes.length 0 s).1
  have hsel : ∀ i, i < N →
      (requests (ds1624_eeprom_read bus drv s buf off N).trace)[2 * i]?
          = some (Txn.write_byte_data 0x17 (i % 256)) ∧
        (requests (ds1624_eeprom_read bus drv s buf off N).trace)[2 * i + 1]?
          = some (Txn.read_byte_data 0x17) := by
    intro i hi
    have h := eeprom_read_steps_getElem N 0 i hi
    rw [Nat.zero_add] at h
    rw [hr]
    exact h
  refine ⟨hsel, ?_, ?_, ?_, ?_⟩
  · intro i hi
    rw [hw, List.getElem?_map, List.getElem?_range' _ _ hi]
    simp [eeprom_write_txn, eeprom_write_val_eq, DS1624_ACCESS_MEMORY,
      List.getElem?_eq_getElem hi]
  · intro i h256 hi
    rw [(hsel i hi).1, (hsel (i - 256) (by omega)).1]
    have : (i - 256) % 256 = i % 256 := by omega
    rw [this]
  · intro i hi hwrap
    obtain ⟨r, hr1, hr2⟩ :=
      (eeprom_read_loop_image bus hbus buf N N 0 drv s).2.2.1 i hi hwrap
    rw [Nat.zero_add] at hr2
    exact ⟨r, hr1, hr2⟩
  · intro i hi hwrap
    have h := (eeprom_write_loop_memBus_wrap drv bytes bytes.length bytes.length 0 m).1
      i hi hwrap
    rw [Nat.zero_add, List.getD_eq_getElem _ _ hi] at h
    exact h

/-- Witness of C16: with count 257 on the memory transport, the select of
index 256 carries address `0`; and after writing the bytes `7, 8` the device
byte `1` holds `8`. -/
theorem C16_address_wraps_mod_256_witness :
    (requests (ds1624_eeprom_read memBus Driver.init Mem.a5 [] 0 257).trace)[512]?
        = some (Txn.write_byte_data 0x17 0) ∧
      (ds1624_eeprom_write memBus Driver.init Mem.a5 [7, 8] 0 2).bus.mem 1 = 8 :=
  ⟨((C16_address_wraps_mod_256 memBus memBus_allSucceed Driver.init Mem.a5 Mem.a5 [] [] 0
      257).1 256 (by decide)).1,
   (C16_address_wraps_mod_256 memBus memBus_allSucceed Driver.init Mem.a5 Mem.a5 []
      [7, 8] 0 0).2.2.2.2 1 (by decide) (by decide)⟩

end DS1624
